import Mathlib

/-!
Verification development for the cloud cost optimization tools repository.

We shallowly embed the recommendation engine:
* `src/aws/optimizers/ec2_optimizer.py` (rightsize / idle / reserved-instance rules,
  pricing table, size-downgrade map, aggregation sort),
* `src/aws/optimizers/s3_optimizer.py` (storage-class, versioning rules),
* `src/azure/optimizers/vm_optimizer.py` (reserved-instance grouping).

Monetary amounts and utilization percentages are modelled as rationals (`ℚ`);
the Python source computes with IEEE doubles, but every claim checked here is
about exact decimal formulas, comparisons and control flow, none of which
depend on binary rounding.  External data fetches (CloudWatch metrics, bucket
metadata) are modelled as fields of the input records: the optimizer functions
under test consume their results, exactly as the Python methods consume the
return values of the `_get_*` helpers.
-/

namespace CloudCost

/-! ### EC2 data model (src/aws/optimizers/ec2_optimizer.py) -/

/-- An EC2 instance as assembled by `_get_instances`, together with the
utilization datum returned by `_get_average_cpu_utilization` (`none` when
CloudWatch has no datapoints) and the uptime returned by
`_get_instance_uptime_hours`. -/
structure Ec2Instance where
  instance_id : String
  instance_type : String
  avg_cpu : Option ℚ
  uptime_hours : ℚ
deriving Repr, DecidableEq

/-- The literal pricing dictionary shared by `_calculate_downsizing_savings`
and `_get_instance_hourly_cost` (both methods embed the same table). -/
def ec2Pricing : List (String × ℚ) := [
  ("t3.nano", 0.0052),
  ("t3.micro", 0.0104),
  ("t3.small", 0.0208),
  ("t3.medium", 0.0416),
  ("t3.large", 0.0832),
  ("t3.xlarge", 0.1664),
  ("t3.2xlarge", 0.3328),
  ("m5.large", 0.096),
  ("m5.xlarge", 0.192),
  ("m5.2xlarge", 0.384),
  ("m5.4xlarge", 0.768),
  ("m5.8xlarge", 1.536),
  ("m5.12xlarge", 2.304),
  ("m5.16xlarge", 3.072),
  ("m5.24xlarge", 4.608),
  ("c5.large", 0.085),
  ("c5.xlarge", 0.17),
  ("c5.2xlarge", 0.34),
  ("c5.4xlarge", 0.68),
  ("c5.9xlarge", 1.53),
  ("c5.12xlarge", 2.04),
  ("c5.18xlarge", 3.06),
  ("c5.24xlarge", 4.08),
  ("r5.large", 0.126),
  ("r5.xlarge", 0.252),
  ("r5.2xlarge", 0.504),
  ("r5.4xlarge", 1.008),
  ("r5.8xlarge", 2.016),
  ("r5.12xlarge", 3.024),
  ("r5.16xlarge", 4.032),
  ("r5.24xlarge", 6.048)]

/-- `dict.get(key)` over a literal Python dictionary, embedded as an
association list. -/
def alookup {β : Type} (k : String) : List (String × β) → Option β
  | [] => none
  | (k', v) :: rest => if k = k' then some v else alookup k rest

/-- Split a character list at every occurrence of `c` (the semantics of
Python's `str.split`). -/
def splitParts (c : Char) : List Char → List (List Char)
  | [] => [[]]
  | x :: xs =>
    let parts := splitParts c xs
    if x = c then [] :: parts
    else
      match parts with
      | p :: rest => (x :: p) :: rest
      | [] => [[x]]

/-- `family, size = current_type.split('.')` guarded by `'.' not in current_type`.
Identifiers with more than one dot would make the Python tuple unpacking raise;
they fall outside every claim, and we map them to `none`. -/
def splitDot (s : String) : Option (String × String) :=
  match splitParts '.' s.data with
  | [family, size] => some (⟨family⟩, ⟨size⟩)
  | _ => none

/-- The `size_map` downgrade dictionary in `_recommend_instance_type`. -/
def size_map : List (String × String) := [
  ("xlarge", "large"),
  ("large", "medium"),
  ("medium", "small"),
  ("2xlarge", "xlarge"),
  ("4xlarge", "2xlarge"),
  ("8xlarge", "4xlarge"),
  ("16xlarge", "8xlarge"),
  ("12xlarge", "6xlarge"),
  ("24xlarge", "12xlarge"),
  ("10xlarge", "4xlarge"),
  ("6xlarge", "3xlarge"),
  ("3xlarge", "xlarge")]

/-- `_recommend_instance_type(current_type, avg_cpu)`: split the type, look the
size up in `size_map`, and only when `avg_cpu < min_cpu_utilization` return the
one-step-smaller type. -/
def recommendInstanceType (min_cpu : ℚ) (current_type : String) (avg_cpu : ℚ) :
    Option String :=
  match splitDot current_type with
  | none => none
  | some (family, size) =>
    match alookup size size_map with
    | some smaller =>
        if avg_cpu < min_cpu then some (family ++ "." ++ smaller) else none
    | none => none

/-- The `size_multipliers` dictionary in `_calculate_downsizing_savings`. -/
def size_multipliers : List (String × ℚ) := [
  ("nano", 0.25),
  ("micro", 0.5),
  ("small", 1),
  ("medium", 2),
  ("large", 4),
  ("xlarge", 8),
  ("2xlarge", 16),
  ("4xlarge", 32),
  ("8xlarge", 64),
  ("12xlarge", 96),
  ("16xlarge", 128),
  ("24xlarge", 192)]

/-- `_calculate_downsizing_savings(current_type, recommended_type, region)`.
`pricing.get(t, 0.0)` becomes `getD 0`; when either price is missing the code
tries the size-multiplier ratio, and when a size token is missing from that
table too it falls through to `(current_hourly - recommended_hourly) * 24 * 30`
computed with the zero defaults. -/
def calculateDownsizingSavings (current_type recommended_type : String) : ℚ :=
  let current_hourly := (alookup current_type ec2Pricing).getD 0
  let recommended_hourly := (alookup recommended_type ec2Pricing).getD 0
  if current_hourly = 0 ∨ recommended_hourly = 0 then
    match splitDot current_type, splitDot recommended_type with
    | some (_, current_size), some (_, recommended_size) =>
      match alookup current_size size_multipliers,
            alookup recommended_size size_multipliers with
      | some cm, some rm => (cm / rm - 1) * 30 * 24 * 0.1
      | _, _ => (current_hourly - recommended_hourly) * 24 * 30
    | _, _ => 0
  else (current_hourly - recommended_hourly) * 24 * 30

/-- A `Rightsize Instance` recommendation record (the dict appended by
`_find_underutilized_instances`, free-text fields omitted). -/
structure RightsizeRec where
  instance_id : String
  instance_type : String
  recommended_type : String
  avg_cpu : ℚ
  estimated_monthly_savings : ℚ
  confidence : String
deriving Repr, DecidableEq

/-- The per-instance body of the `_find_underutilized_instances` loop: fire
when utilization data is present, strictly below the threshold, and a distinct
downgrade target exists. -/
def rightsizeRec (min_cpu : ℚ) (i : Ec2Instance) : Option RightsizeRec :=
  match i.avg_cpu with
  | none => none
  | some cpu =>
    if cpu < min_cpu then
      match recommendInstanceType min_cpu i.instance_type cpu with
      | some recommended =>
        if recommended ≠ i.instance_type then
          some { instance_id := i.instance_id
                 instance_type := i.instance_type
                 recommended_type := recommended
                 avg_cpu := cpu
                 estimated_monthly_savings :=
                   calculateDownsizingSavings i.instance_type recommended
                 confidence := if cpu < 2 then "High" else "Medium" }
        else none
      | none => none
    else none

/-- `_find_underutilized_instances(instances, region)`. -/
def findUnderutilizedInstances (min_cpu : ℚ) (instances : List Ec2Instance) :
    List RightsizeRec :=
  instances.filterMap (rightsizeRec min_cpu)

/-- `_get_instance_hourly_cost(instance_type, region)`:
`pricing.get(instance_type, 0.1)`.  There is no magnitude-based fallback in
this method; off-catalog types get the flat `0.1` default. -/
def getInstanceHourlyCost (instance_type : String) : ℚ :=
  (alookup instance_type ec2Pricing).getD 0.1

/-- A `Terminate Idle Instance` recommendation record. -/
structure IdleRec where
  instance_id : String
  instance_type : String
  avg_cpu : ℚ
  estimated_monthly_savings : ℚ
  confidence : String
deriving Repr, DecidableEq

/-- The per-instance body of the `_find_idle_instances` loop: fire when
utilization data is present and strictly below the fixed `1.0` threshold. -/
def idleRec (i : Ec2Instance) : Option IdleRec :=
  match i.avg_cpu with
  | none => none
  | some cpu =>
    if cpu < 1 then
      some { instance_id := i.instance_id
             instance_type := i.instance_type
             avg_cpu := cpu
             estimated_monthly_savings :=
               getInstanceHourlyCost i.instance_type * 24 * 30
             confidence := if cpu < 0.5 then "High" else "Medium" }
    else none

/-- `_find_idle_instances(instances, region)`. -/
def findIdleInstances (instances : List Ec2Instance) : List IdleRec :=
  instances.filterMap idleRec

/-! ### Reserved-instance grouping

`_find_ri_opportunities` builds a Python dict mapping a group key to a count
and then iterates over the dict.  Python dicts iterate in key-insertion order,
i.e. in order of first occurrence; `dictKeys` reproduces that order. -/

/-- Occurrences of `k` in `l`: the count a Python dict accumulates for key
`k`. -/
def countKey {α : Type} [DecidableEq α] (k : α) (l : List α) : ℕ :=
  (l.filter (fun x => decide (x = k))).length

/-- Keys of a Python dict built by counting the elements of `l`, in insertion
(first-occurrence) order. -/
def dictKeys {α : Type} [DecidableEq α] : List α → List α
  | [] => []
  | t :: ts => t :: dictKeys (ts.filter (fun x => decide (x ≠ t)))
termination_by l => l.length
decreasing_by
  simpa using Nat.lt_succ_of_le (List.length_filter_le _ _)

/-- A `Purchase Reserved Instances` recommendation record (AWS). -/
structure RIRec where
  instance_type : String
  count : ℕ
  estimated_monthly_savings : ℚ
  confidence : String
deriving Repr, DecidableEq

/-- The group-level body of the AWS `_find_ri_opportunities` loop:
`ri_monthly = on_demand_monthly * 0.6` and
`savings = on_demand_monthly - ri_monthly` — a flat discount, whatever the
count; the details text says "approximately 40% savings". -/
def awsRiRec (instance_type : String) (count : ℕ) : RIRec :=
  let hourly_cost := getInstanceHourlyCost instance_type
  let on_demand_monthly := hourly_cost * 24 * 30 * count
  let ri_monthly := on_demand_monthly * 0.6
  { instance_type := instance_type
    count := count
    estimated_monthly_savings := on_demand_monthly - ri_monthly
    confidence := if 5 < count then "High" else "Medium" }

/-- The instance types counted into the `instance_types` dict: one entry per
instance passing the `uptime_hours >= self.min_uptime_hours` gate. -/
def gatedTypes (min_uptime : ℚ) (instances : List Ec2Instance) : List String :=
  (instances.filter (fun i => decide (min_uptime ≤ i.uptime_hours))).map
    (·.instance_type)

/-- AWS `_find_ri_opportunities(instances, region)`: count gated instances per
type, and emit one recommendation per type with `count >= 2`. -/
def findRiOpportunities (min_uptime : ℚ) (instances : List Ec2Instance) :
    List RIRec :=
  let gated := gatedTypes min_uptime instances
  (dictKeys gated).filterMap fun ty =>
    let count := countKey ty gated
    if 2 ≤ count then some (awsRiRec ty count) else none

/-! ### Azure VM optimizer (src/azure/optimizers/vm_optimizer.py) -/

/-- An Azure VM as assembled by `_get_vms`. -/
structure AzureVM where
  vm_id : String
  vm_size : String
  location : String
  power_state : String
deriving Repr, DecidableEq

/-- The literal pricing dictionary shared by `_calculate_downsizing_savings`
and `_get_vm_hourly_cost` in the Azure optimizer. -/
def azurePricing : List (String × ℚ) := [
  ("Standard_D1s_v3", 0.0768),
  ("Standard_D2s_v3", 0.1536),
  ("Standard_D4s_v3", 0.3072),
  ("Standard_D8s_v3", 0.6144),
  ("Standard_D16s_v3", 1.2288),
  ("Standard_D32s_v3", 2.4576),
  ("Standard_D64s_v3", 4.9152),
  ("Standard_E1s_v3", 0.0768),
  ("Standard_E2s_v3", 0.1536),
  ("Standard_E4s_v3", 0.3072),
  ("Standard_E8s_v3", 0.6144),
  ("Standard_E16s_v3", 1.2288),
  ("Standard_E32s_v3", 2.4576),
  ("Standard_E64s_v3", 4.9152),
  ("Standard_F1s_v2", 0.05),
  ("Standard_F2s_v2", 0.1),
  ("Standard_F4s_v2", 0.2),
  ("Standard_F8s_v2", 0.4),
  ("Standard_F16s_v2", 0.8),
  ("Standard_F32s_v2", 1.6),
  ("Standard_F64s_v2", 3.2),
  ("Standard_B1s", 0.012),
  ("Standard_B1ms", 0.0218),
  ("Standard_B2s", 0.0436),
  ("Standard_B2ms", 0.0832),
  ("Standard_B4ms", 0.166),
  ("Standard_B8ms", 0.333),
  ("Standard_B12ms", 0.499),
  ("Standard_B16ms", 0.666),
  ("Standard_B20ms", 0.832)]

/-- `_get_vm_hourly_cost(vm_size, location)`: `pricing.get(vm_size, 0.1)`. -/
def getVmHourlyCost (vm_size : String) : ℚ :=
  (alookup vm_size azurePricing).getD 0.1

/-- An Azure `Purchase Reserved Instances` recommendation record. -/
structure AzureRIRec where
  vm_size : String
  location : String
  count : ℕ
  ri_term : String
  estimated_monthly_savings : ℚ
  confidence : String
deriving Repr, DecidableEq

/-- The group-level body of the Azure `_find_ri_opportunities` loop:
`count >= 5` selects the 3-year tier (`on_demand_monthly * 0.6`), otherwise
the 1-year tier (`on_demand_monthly * 0.35`). -/
def azureRiRec (vm_size location : String) (count : ℕ) : AzureRIRec :=
  let hourly_cost := getVmHourlyCost vm_size
  let on_demand_monthly := hourly_cost * 24 * 30 * count
  let one_year_savings := on_demand_monthly * 0.35
  let three_year_savings := on_demand_monthly * 0.6
  if 5 ≤ count then
    { vm_size := vm_size, location := location, count := count
      ri_term := "3-year"
      estimated_monthly_savings := three_year_savings
      confidence := if 5 < count then "High" else "Medium" }
  else
    { vm_size := vm_size, location := location, count := count
      ri_term := "1-year"
      estimated_monthly_savings := one_year_savings
      confidence := if 5 < count then "High" else "Medium" }

/-- The `(vm_size, location)` group keys counted into `vm_groups`: one entry
per VM whose `power_state` is `"running"`. -/
def azureGroupKeys (vms : List AzureVM) : List (String × String) :=
  (vms.filter (fun v => decide (v.power_state = "running"))).map
    (fun v => (v.vm_size, v.location))

/-- Azure `_find_ri_opportunities(subscription_id, vms)`: group running VMs by
`(vm_size, location)`, and emit one recommendation per group with
`count >= 2`. -/
def findAzureRiOpportunities (vms : List AzureVM) : List AzureRIRec :=
  let keys := azureGroupKeys vms
  (dictKeys keys).filterMap fun k =>
    let count := countKey k keys
    if 2 ≤ count then some (azureRiRec k.1 k.2 count) else none

/-! ### S3 optimizer (src/aws/optimizers/s3_optimizer.py) -/

/-- One rule of a bucket's lifecycle configuration; for the claims checked
here only the presence of the `NoncurrentVersionExpiration` key matters. -/
structure S3Rule where
  noncurrent_version_expiration : Bool
deriving Repr, DecidableEq

/-- A bucket as assembled by `_get_buckets`: CloudWatch metrics
(`size_bytes`, `last_accessed` reduced to the day difference computed at line
314), lifecycle configuration and versioning status. -/
structure S3Bucket where
  name : String
  size_bytes : ℚ
  days_since_access : Option ℤ
  has_lifecycle_policy : Bool
  rules : List S3Rule
  versioning_enabled : Bool
deriving Repr, DecidableEq

/-- The S3 optimization settings read in `S3Optimizer.__init__`, with their
defaults `30 / 90 / 180 / 128`. -/
structure S3Config where
  infrequent_access_threshold_days : ℤ := 30
  glacier_threshold_days : ℤ := 90
  deep_archive_threshold_days : ℤ := 180
  min_size_mb : ℚ := 128
deriving Repr, DecidableEq

/-- `_calculate_ia_savings(size_bytes)`. -/
def calculateIaSavings (size_bytes : ℚ) : ℚ :=
  size_bytes / (1024 * 1024 * 1024) * (0.023 - 0.0125) * 12

/-- `_calculate_glacier_savings(size_bytes)`. -/
def calculateGlacierSavings (size_bytes : ℚ) : ℚ :=
  size_bytes / (1024 * 1024 * 1024) * (0.023 - 0.004) * 12

/-- `_calculate_deep_archive_savings(size_bytes)`. -/
def calculateDeepArchiveSavings (size_bytes : ℚ) : ℚ :=
  size_bytes / (1024 * 1024 * 1024) * (0.023 - 0.00099) * 12

/-- A `Change Storage Class` recommendation record. -/
structure StorageClassRec where
  bucket_name : String
  storage_class : String
  potential_savings : ℚ
  days_since_access : ℤ
deriving Repr, DecidableEq

/-- The per-bucket body of the `_find_storage_class_opportunities` loop,
with the source's branch order: the `days > glacier_threshold` test comes
first, and `days > deep_archive_threshold` is only reached in the `elif`. -/
def storageClassRec (cfg : S3Config) (b : S3Bucket) : Option StorageClassRec :=
  if b.size_bytes < cfg.min_size_mb * 1024 * 1024 then none
  else
    match b.days_since_access with
    | none => none
    | some days =>
      if days > cfg.infrequent_access_threshold_days then
        if days > cfg.glacier_threshold_days then
          some { bucket_name := b.name, storage_class := "GLACIER"
                 potential_savings := calculateGlacierSavings b.size_bytes
                 days_since_access := days }
        else if days > cfg.deep_archive_threshold_days then
          some { bucket_name := b.name, storage_class := "DEEP_ARCHIVE"
                 potential_savings := calculateDeepArchiveSavings b.size_bytes
                 days_since_access := days }
        else
          some { bucket_name := b.name, storage_class := "STANDARD_IA"
                 potential_savings := calculateIaSavings b.size_bytes
                 days_since_access := days }
      else none

/-- `_find_storage_class_opportunities(buckets)`. -/
def findStorageClassOpportunities (cfg : S3Config) (buckets : List S3Bucket) :
    List StorageClassRec :=
  buckets.filterMap (storageClassRec cfg)

/-- `_calculate_versioning_savings(size_bytes)`: versions are assumed to add
50% to storage billed at the standard `0.023` rate, annualized. -/
def calculateVersioningSavings (size_bytes : ℚ) : ℚ :=
  size_bytes / (1024 * 1024 * 1024) * 0.5 * 0.023 * 12

/-- An `Add Version Expiration` recommendation record. -/
structure VersioningRec where
  bucket_name : String
  potential_savings : ℚ
deriving Repr, DecidableEq

/-- The per-bucket body of the `_find_versioning_optimization_opportunities`
loop: it requires `versioning['enabled'] and lifecycle['has_lifecycle_policy']`
and then fires when no rule carries a `NoncurrentVersionExpiration`. -/
def versioningRec (b : S3Bucket) : Option VersioningRec :=
  if b.versioning_enabled ∧ b.has_lifecycle_policy then
    if b.rules.any (·.noncurrent_version_expiration) then none
    else some { bucket_name := b.name
                potential_savings := calculateVersioningSavings b.size_bytes }
  else none

/-- `_find_versioning_optimization_opportunities(buckets)`. -/
def findVersioningOpportunities (buckets : List S3Bucket) :
    List VersioningRec :=
  buckets.filterMap versioningRec

/-! ### Recommendation aggregation (generate_recommendations)

`all_recommendations.sort(key=lambda x: x.get('estimated_monthly_savings', 0),
reverse=True)` is Python's stable sort in descending key order: an element
goes before every later-input element whose key is not larger.  Insertion
sort with that placement rule implements exactly this specification, and the
theorems below prove it is a permutation, sorted, and stable. -/

/-- Insert `r` before the first element whose key is `≤ key r` (all elements
already in the list come earlier in the input, so ties keep input order). -/
def insertDesc {α : Type} (key : α → ℚ) (r : α) : List α → List α
  | [] => [r]
  | x :: xs => if key x ≤ key r then r :: x :: xs else x :: insertDesc key r xs

/-- Stable descending sort by `key`, the semantics of
`list.sort(key=..., reverse=True)`. -/
def sortBySavingsDesc {α : Type} (key : α → ℚ) : List α → List α
  | [] => []
  | x :: xs => insertDesc key x (sortBySavingsDesc key xs)

/-- The union type of the three AWS EC2 rule outputs collected by
`generate_recommendations`. -/
inductive AwsRec : Type
  | rightsize (r : RightsizeRec)
  | idle (r : IdleRec)
  | ri (r : RIRec)
deriving Repr, DecidableEq

/-- `x.get('estimated_monthly_savings', 0)`. -/
def AwsRec.savings : AwsRec → ℚ
  | .rightsize r => r.estimated_monthly_savings
  | .idle r => r.estimated_monthly_savings
  | .ri r => r.estimated_monthly_savings

/-- `EC2Optimizer.generate_recommendations` for one region: concatenate the
three rules' outputs, then sort descending by estimated monthly savings. -/
def generateRecommendations (min_cpu min_uptime : ℚ)
    (instances : List Ec2Instance) : List AwsRec :=
  sortBySavingsDesc AwsRec.savings
    ((findUnderutilizedInstances min_cpu instances).map .rightsize
      ++ (findIdleInstances instances).map .idle
      ++ (findRiOpportunities min_uptime instances).map .ri)

/-! ### Helper lemmas about the sort -/

section SortLemmas

variable {α : Type} (key : α → ℚ)

lemma insertDesc_perm (r : α) (l : List α) :
    List.Perm (insertDesc key r l) (r :: l) := by
  induction l with
  | nil => exact List.Perm.refl _
  | cons x xs ih =>
    simp only [insertDesc]
    split
    · exact List.Perm.refl _
    · exact (ih.cons x).trans (List.Perm.swap r x xs)

lemma sortBySavingsDesc_perm (l : List α) :
    List.Perm (sortBySavingsDesc key l) l := by
  induction l with
  | nil => exact List.Perm.refl _
  | cons x xs ih =>
    exact (insertDesc_perm key x _).trans (ih.cons x)

lemma mem_insertDesc {r a : α} {l : List α} :
    a ∈ insertDesc key r l ↔ a = r ∨ a ∈ l := by
  rw [(insertDesc_perm key r l).mem_iff, List.mem_cons]

lemma insertDesc_pairwise {r : α} {l : List α}
    (h : l.Pairwise (fun a b => key b ≤ key a)) :
    (insertDesc key r l).Pairwise (fun a b => key b ≤ key a) := by
  induction l with
  | nil => simp [insertDesc]
  | cons x xs ih =>
    rw [List.pairwise_cons] at h
    simp only [insertDesc]
    split
    · refine List.Pairwise.cons ?_ (List.Pairwise.cons h.1 h.2)
      intro b hb
      rcases List.mem_cons.mp hb with hb | hb
      · exact hb ▸ ‹key x ≤ key r›
      · exact (h.1 b hb).trans ‹key x ≤ key r›
    · refine List.Pairwise.cons ?_ (ih h.2)
      intro b hb
      rcases (mem_insertDesc key).mp hb with hb | hb
      · exact hb ▸ le_of_lt (lt_of_not_le ‹¬ key x ≤ key r›)
      · exact h.1 b hb

lemma sortBySavingsDesc_pairwise (l : List α) :
    (sortBySavingsDesc key l).Pairwise (fun a b => key b ≤ key a) := by
  induction l with
  | nil => simp [sortBySavingsDesc]
  | cons x xs ih => exact insertDesc_pairwise key ih

lemma insertDesc_filter_of_eq {r : α} {v : ℚ} (hv : key r = v) (l : List α) :
    (insertDesc key r l).filter (fun x => decide (key x = v)) =
      r :: l.filter (fun x => decide (key x = v)) := by
  induction l with
  | nil => simp [insertDesc, hv]
  | cons x xs ih =>
    simp only [insertDesc]
    split
    · simp [hv]
    · have hx : ¬ key x = v := by
        intro hxv
        exact ‹¬ key x ≤ key r› (le_of_eq (hxv.trans hv.symm))
      simp [List.filter_cons, hx, ih]

lemma insertDesc_filter_of_ne {r : α} {v : ℚ} (hv : ¬ key r = v) (l : List α) :
    (insertDesc key r l).filter (fun x => decide (key x = v)) =
      l.filter (fun x => decide (key x = v)) := by
  induction l with
  | nil => simp [insertDesc, hv]
  | cons x xs ih =>
    simp only [insertDesc]
    split
    · simp [List.filter_cons, hv]
    · simp [List.filter_cons, ih]

/-- Stability of the aggregation sort: for every savings value `v`, the
sub-sequence of recommendations carrying exactly `v` is unchanged, i.e. ties
are kept in input order. -/
lemma sortBySavingsDesc_filter (l : List α) (v : ℚ) :
    (sortBySavingsDesc key l).filter (fun x => decide (key x = v)) =
      l.filter (fun x => decide (key x = v)) := by
  induction l with
  | nil => rfl
  | cons x xs ih =>
    simp only [sortBySavingsDesc]
    by_cases hx : key x = v
    · rw [insertDesc_filter_of_eq key hx, ih, List.filter_cons,
        if_pos (by simpa using hx)]
    · rw [insertDesc_filter_of_ne key hx, ih, List.filter_cons,
        if_neg (by simpa using hx)]

end SortLemmas

/-! ### Helper lemmas about dict grouping -/

section DictLemmas

variable {α : Type} [DecidableEq α]

lemma mem_dictKeys (a : α) (l : List α) : a ∈ dictKeys l ↔ a ∈ l := by
  induction l using dictKeys.induct with
  | case1 => simp [dictKeys]
  | case2 t ts ih =>
    rw [dictKeys]
    by_cases ha : a = t
    · simp [ha]
    · simp only [List.mem_cons, ha, false_or, ih, List.mem_filter]
      simp [ha]

lemma nodup_dictKeys (l : List α) : (dictKeys l).Nodup := by
  induction l using dictKeys.induct with
  | case1 => simp [dictKeys]
  | case2 t ts ih =>
    rw [dictKeys]
    refine List.Nodup.cons ?_ ih
    intro hmem
    have := (mem_dictKeys t _).mp hmem
    simp [List.mem_filter] at this

lemma countKey_pos_iff (k : α) (l : List α) : 0 < countKey k l ↔ k ∈ l := by
  unfold countKey
  rw [List.length_pos_iff_exists_mem]
  constructor
  · rintro ⟨x, hx⟩
    rw [List.mem_filter] at hx
    have : x = k := by simpa using hx.2
    exact this ▸ hx.1
  · intro hk
    exact ⟨k, List.mem_filter.mpr ⟨hk, by simp⟩⟩

/-- A `filterMap` over a duplicate-free key list, where each produced record
carries its key, contains at most the one record of each key. -/
lemma filter_filterMap_keyed {β : Type} (keyf : β → α) (f : α → Option β)
    (hf : ∀ t r, f t = some r → keyf r = t) (l : List α) (hl : l.Nodup)
    (ty : α) :
    (l.filterMap f).filter (fun r => decide (keyf r = ty)) =
      if ty ∈ l then (f ty).toList else [] := by
  induction l with
  | nil => simp
  | cons t ts ih =>
    rw [List.nodup_cons] at hl
    have ihts := ih hl.2
    by_cases hty : ty = t
    · subst hty
      rw [if_neg hl.1] at ihts
      cases hfty : f ty with
      | none => simp [List.filterMap_cons, hfty, ihts]
      | some r =>
        have hkey : keyf r = ty := hf ty r hfty
        simp [List.filterMap_cons, hfty, List.filter_cons, hkey, ihts]
    · cases hft : f t with
      | none => simp [List.filterMap_cons, hft, ihts, hty]
      | some r =>
        have hkey : ¬ keyf r = ty := by
          rw [hf t r hft]
          exact fun h => hty h.symm
        simp [List.filterMap_cons, hft, List.filter_cons, hkey, ihts, hty]

end DictLemmas

/-! ### Helper lemmas about the pricing tables -/

lemma alookup_eq_some_mem {β : Type} {k : String} {l : List (String × β)}
    {v : β} (h : alookup k l = some v) : (k, v) ∈ l := by
  induction l with
  | nil => simp [alookup] at h
  | cons p rest ih =>
    obtain ⟨k', v'⟩ := p
    rw [alookup] at h
    split at h
    · obtain ⟨rfl⟩ := h
      simp [‹k = k'›]
    · exact List.mem_cons_of_mem _ (ih h)

lemma ec2Pricing_pos : ∀ p ∈ ec2Pricing, (0 : ℚ) < p.2 := by
  simp only [ec2Pricing, List.forall_mem_cons, List.not_mem_nil, false_implies,
    implies_true, and_true]
  norm_num

lemma getInstanceHourlyCost_pos (ty : String) : 0 < getInstanceHourlyCost ty := by
  unfold getInstanceHourlyCost
  cases h : alookup ty ec2Pricing with
  | none => norm_num
  | some v =>
    simpa using ec2Pricing_pos (ty, v) (alookup_eq_some_mem h)

/-- The rightsize rule only depends on the threshold through its two
`avg_cpu < min_cpu` guards, so a hit at a lower threshold is a hit at any
higher one, with the identical record. -/
lemma rightsizeRec_mono {t' t : ℚ} (hle : t' ≤ t) (i : Ec2Instance)
    {r : RightsizeRec} (h : rightsizeRec t' i = some r) :
    rightsizeRec t i = some r := by
  obtain ⟨iid, ty, avg, up⟩ := i
  cases avg with
  | none => simp [rightsizeRec] at h
  | some cpu =>
    simp only [rightsizeRec] at h ⊢
    by_cases h1 : cpu < t'
    · have h2 : cpu < t := lt_of_lt_of_le h1 hle
      rw [if_pos h1] at h
      rw [if_pos h2]
      have hrec : recommendInstanceType t ty cpu =
          recommendInstanceType t' ty cpu := by
        unfold recommendInstanceType
        cases splitDot ty with
        | none => rfl
        | some fs =>
          obtain ⟨family, size⟩ := fs
          dsimp only
          cases alookup size size_map with
          | none => rfl
          | some smaller =>
            dsimp only
            rw [if_pos h1, if_pos h2]
      rw [hrec]
      exact h
    · rw [if_neg h1] at h
      exact absurd h (by simp)

/-! ## Claims -/

/-- **C5.** Utilization exactly equal to a rule's threshold does not fire the
rule (strict `<`): average CPU equal to the rightsize threshold yields no
Rightsize recommendation and average CPU exactly `1.0` yields no
Terminate-Idle recommendation, while values strictly below each threshold
(with a valid, distinct downgrade target for Rightsize) do fire. -/
theorem c5_threshold_boundary_strict (t : ℚ) (i : Ec2Instance) :
    (i.avg_cpu = some t → rightsizeRec t i = none) ∧
    (i.avg_cpu = some 1 → idleRec i = none) ∧
    (∀ cpu target, i.avg_cpu = some cpu → cpu < t →
      recommendInstanceType t i.instance_type cpu = some target →
      target ≠ i.instance_type → (rightsizeRec t i).isSome) ∧
    (∀ cpu, i.avg_cpu = some cpu → cpu < 1 → (idleRec i).isSome) := by
  refine ⟨?_, ?_, ?_, ?_⟩
  · intro h
    simp [rightsizeRec, h, lt_irrefl]
  · intro h
    simp [idleRec, h, lt_irrefl]
  · intro cpu target hc hlt hrec hne
    simp [rightsizeRec, hc, if_pos hlt, hrec, hne]
  · intro cpu hc hlt
    simp [idleRec, hc, if_pos hlt]

/-- Witness for C5 at concrete inputs: threshold 5, a `t3.xlarge` instance at
exactly 5.0 / exactly 1.0 does not fire; at 3.0 / 0.5 it does. -/
theorem c5_threshold_boundary_strict_witness :
    rightsizeRec 5 ⟨"i-a", "t3.xlarge", some 5, 0⟩ = none ∧
    idleRec ⟨"i-b", "t3.xlarge", some 1, 0⟩ = none ∧
    (rightsizeRec 5 ⟨"i-c", "t3.xlarge", some 3, 0⟩).isSome ∧
    (idleRec ⟨"i-d", "t3.xlarge", some (1/2), 0⟩).isSome := by
  have hsplit : splitDot "t3.xlarge" = some ("t3", "xlarge") := by
    simp [splitDot, splitParts]
  have happ : ("t3" ++ "." ++ "large" : String) = "t3.large" := rfl
  have hrec : recommendInstanceType 5 "t3.xlarge" 3 = some "t3.large" := by
    norm_num [recommendInstanceType, hsplit, size_map, alookup, happ]
  refine ⟨(c5_threshold_boundary_strict 5 _).1 rfl,
    (c5_threshold_boundary_strict 5 _).2.1 rfl,
    (c5_threshold_boundary_strict 5 _).2.2.1 3 "t3.large" rfl (by norm_num)
      hrec (by simp),
    (c5_threshold_boundary_strict 5 _).2.2.2 (1/2) rfl (by norm_num)⟩

/-- **C6.** A resource with absent (`None`) average utilization gets neither a
Rightsize nor a Terminate-Idle recommendation, the absent value is not
treated as zero (the rules simply do not fire), and the remaining resources
of the run are processed unchanged.  Both embedded rules are total functions,
matching the source where the `is not None` guard precedes every use. -/
theorem c6_missing_metric_skips (min_cpu : ℚ) (i : Ec2Instance)
    (instances : List Ec2Instance) (h : i.avg_cpu = none) :
    rightsizeRec min_cpu i = none ∧ idleRec i = none ∧
    findUnderutilizedInstances min_cpu (i :: instances) =
      findUnderutilizedInstances min_cpu instances ∧
    findIdleInstances (i :: instances) = findIdleInstances instances := by
  have h1 : rightsizeRec min_cpu i = none := by simp [rightsizeRec, h]
  have h2 : idleRec i = none := by simp [idleRec, h]
  exact ⟨h1, h2,
    by simp [findUnderutilizedInstances, List.filterMap_cons, h1],
    by simp [findIdleInstances, List.filterMap_cons, h2]⟩

/-- Witness for C6: a metric-less instance ahead of a normal one changes
nothing. -/
theorem c6_missing_metric_skips_witness :
    rightsizeRec 5 ⟨"i-none", "t3.xlarge", none, 0⟩ = none ∧
    idleRec ⟨"i-none", "t3.xlarge", none, 0⟩ = none ∧
    findUnderutilizedInstances 5
        [⟨"i-none", "t3.xlarge", none, 0⟩, ⟨"i-2", "t3.xlarge", some 3, 0⟩] =
      findUnderutilizedInstances 5 [⟨"i-2", "t3.xlarge", some 3, 0⟩] ∧
    findIdleInstances
        [⟨"i-none", "t3.xlarge", none, 0⟩, ⟨"i-2", "t3.xlarge", some 3, 0⟩] =
      findIdleInstances [⟨"i-2", "t3.xlarge", some 3, 0⟩] :=
  c6_missing_metric_skips 5 ⟨"i-none", "t3.xlarge", none, 0⟩
    [⟨"i-2", "t3.xlarge", some 3, 0⟩] rfl

/-- **C7.** The aggregation step is a stable descending sort by estimated
monthly savings of the concatenated rule outputs: it permutes its input, its
output is sorted descending, ties keep input order (the sub-sequence at each
savings value is unchanged), the whole pipeline maps an empty inventory to an
empty list, and savings `[10, 50, 5]` come out ordered `[50, 10, 5]`. -/
theorem c7_aggregator_sorts (recs : List AwsRec) :
    List.Perm (sortBySavingsDesc AwsRec.savings recs) recs ∧
    (sortBySavingsDesc AwsRec.savings recs).Pairwise
      (fun a b => b.savings ≤ a.savings) ∧
    (∀ v, (sortBySavingsDesc AwsRec.savings recs).filter
        (fun x => decide (x.savings = v)) =
      recs.filter (fun x => decide (x.savings = v))) ∧
    (∀ min_cpu min_uptime : ℚ, generateRecommendations min_cpu min_uptime [] = []) ∧
    sortBySavingsDesc AwsRec.savings
        [.idle ⟨"a", "t", 0.4, 10, "High"⟩,
         .idle ⟨"b", "t", 0.4, 50, "High"⟩,
         .idle ⟨"c", "t", 0.4, 5, "High"⟩] =
      [.idle ⟨"b", "t", 0.4, 50, "High"⟩,
       .idle ⟨"a", "t", 0.4, 10, "High"⟩,
       .idle ⟨"c", "t", 0.4, 5, "High"⟩] := by
  refine ⟨sortBySavingsDesc_perm _ recs, sortBySavingsDesc_pairwise _ recs,
    sortBySavingsDesc_filter _ recs, ?_, ?_⟩
  · intro min_cpu min_uptime
    simp [generateRecommendations, findUnderutilizedInstances, findIdleInstances,
      findRiOpportunities, gatedTypes, dictKeys, sortBySavingsDesc]
  · norm_num [sortBySavingsDesc, insertDesc, AwsRec.savings]

/-- **C8.** Decreasing the underutilization threshold only removes Rightsize
recommendations: every recommendation emitted at threshold `t' ≤ t` is also
emitted at threshold `t` (so the set of recommended instances at `t'` is a
subset of the set at `t`). -/
theorem c8_threshold_monotone (t' t : ℚ) (hle : t' ≤ t)
    (instances : List Ec2Instance) (r : RightsizeRec)
    (hr : r ∈ findUnderutilizedInstances t' instances) :
    r ∈ findUnderutilizedInstances t instances := by
  rw [findUnderutilizedInstances, List.mem_filterMap] at hr ⊢
  obtain ⟨i, hi, hri⟩ := hr
  exact ⟨i, hi, rightsizeRec_mono hle i hri⟩

/-- Witness for C8: the `t3.xlarge` at 3.0% recommended at threshold 4 is
also recommended at threshold 5. -/
theorem c8_threshold_monotone_witness :
    (⟨"i-c", "t3.xlarge", "t3.large", 3, 7488/125, "Medium"⟩ : RightsizeRec) ∈
      findUnderutilizedInstances 5 [⟨"i-c", "t3.xlarge", some 3, 0⟩] := by
  have hsplit : splitDot "t3.xlarge" = some ("t3", "xlarge") := by
    simp [splitDot, splitParts]
  have happ : ("t3" ++ "." ++ "large" : String) = "t3.large" := rfl
  have hrec : recommendInstanceType 4 "t3.xlarge" 3 = some "t3.large" := by
    norm_num [recommendInstanceType, hsplit, size_map, alookup, happ]
  have hp1 : alookup "t3.xlarge" ec2Pricing = some 0.1664 := by
    simp [alookup, ec2Pricing]
  have hp2 : alookup "t3.large" ec2Pricing = some 0.0832 := by
    simp [alookup, ec2Pricing]
  have hcalc : calculateDownsizingSavings "t3.xlarge" "t3.large" = 7488/125 := by
    simp only [calculateDownsizingSavings, hp1, hp2, Option.getD_some]
    norm_num
  have hfound : findUnderutilizedInstances 4 [⟨"i-c", "t3.xlarge", some 3, 0⟩] =
      [⟨"i-c", "t3.xlarge", "t3.large", 3, 7488/125, "Medium"⟩] := by
    have hne : ¬ ("t3.large" : String) = "t3.xlarge" := by decide
    simp only [findUnderutilizedInstances, List.filterMap_cons,
      List.filterMap_nil]
    norm_num [rightsizeRec, hrec, hcalc, hne]
  exact c8_threshold_monotone 4 5 (by norm_num) _ _ (by rw [hfound]; simp)

/-- **C4.** In both providers' Reserved-Capacity groupers a group of exactly 1
qualifying member produces no recommendation and a group of exactly 2 produces
exactly one recommendation (qualifying = past the uptime gate for AWS, in
`running` state for Azure). -/
theorem c4_group_size_gate (min_uptime : ℚ) (instances : List Ec2Instance)
    (ty : String) (vms : List AzureVM) (k : String × String) :
    (countKey ty (gatedTypes min_uptime instances) = 1 →
      ((findRiOpportunities min_uptime instances).filter
        (fun r => decide (r.instance_type = ty))).length = 0) ∧
    (countKey ty (gatedTypes min_uptime instances) = 2 →
      ((findRiOpportunities min_uptime instances).filter
        (fun r => decide (r.instance_type = ty))).length = 1) ∧
    (countKey k (azureGroupKeys vms) = 1 →
      ((findAzureRiOpportunities vms).filter
        (fun r => decide ((r.vm_size, r.location) = k))).length = 0) ∧
    (countKey k (azureGroupKeys vms) = 2 →
      ((findAzureRiOpportunities vms).filter
        (fun r => decide ((r.vm_size, r.location) = k))).length = 1) := by
  have hfaws := filter_filterMap_keyed RIRec.instance_type
    (fun t => if 2 ≤ countKey t (gatedTypes min_uptime instances) then
        some (awsRiRec t (countKey t (gatedTypes min_uptime instances)))
      else none)
    (by
      intro t r h
      dsimp only at h ⊢
      split at h
      · cases h; rfl
      · simp at h)
    (dictKeys (gatedTypes min_uptime instances)) (nodup_dictKeys _) ty
  have hunfa : findRiOpportunities min_uptime instances =
      (dictKeys (gatedTypes min_uptime instances)).filterMap
        (fun t => if 2 ≤ countKey t (gatedTypes min_uptime instances) then
            some (awsRiRec t (countKey t (gatedTypes min_uptime instances)))
          else none) := rfl
  have hfaz := filter_filterMap_keyed (fun r : AzureRIRec => (r.vm_size, r.location))
    (fun t => if 2 ≤ countKey t (azureGroupKeys vms) then
        some (azureRiRec t.1 t.2 (countKey t (azureGroupKeys vms)))
      else none)
    (by
      intro t r h
      dsimp only at h ⊢
      split at h
      · cases h
        unfold azureRiRec
        dsimp only
        split <;> rfl
      · simp at h)
    (dictKeys (azureGroupKeys vms)) (nodup_dictKeys _) k
  have hunfz : findAzureRiOpportunities vms =
      (dictKeys (azureGroupKeys vms)).filterMap
        (fun t => if 2 ≤ countKey t (azureGroupKeys vms) then
            some (azureRiRec t.1 t.2 (countKey t (azureGroupKeys vms)))
          else none) := rfl
  refine ⟨?_, ?_, ?_, ?_⟩
  · intro h1
    rw [hunfa, hfaws]
    split
    · rw [h1]
      norm_num
    · simp
  · intro h2
    have hmem : ty ∈ dictKeys (gatedTypes min_uptime instances) :=
      (mem_dictKeys _ _).mpr ((countKey_pos_iff _ _).mp (by rw [h2]; norm_num))
    rw [hunfa, hfaws, if_pos hmem, h2]
    norm_num
  · intro h1
    rw [hunfz, hfaz]
    split
    · rw [h1]
      norm_num
    · simp
  · intro h2
    have hmem : k ∈ dictKeys (azureGroupKeys vms) :=
      (mem_dictKeys _ _).mpr ((countKey_pos_iff _ _).mp (by rw [h2]; norm_num))
    rw [hunfz, hfaz, if_pos hmem, h2]
    norm_num

/-- Witness for C4: one long-running `m5.large` yields no RI recommendation,
two yield exactly one; likewise one/two running `Standard_D2s_v3` VMs in
`eastus`. -/
theorem c4_group_size_gate_witness :
    ((findRiOpportunities 168 [⟨"i-1", "m5.large", some 50, 200⟩]).filter
      (fun r => decide (r.instance_type = "m5.large"))).length = 0 ∧
    ((findRiOpportunities 168 [⟨"i-1", "m5.large", some 50, 200⟩,
        ⟨"i-2", "m5.large", some 50, 200⟩]).filter
      (fun r => decide (r.instance_type = "m5.large"))).length = 1 ∧
    ((findAzureRiOpportunities [⟨"v-1", "Standard_D2s_v3", "eastus", "running"⟩]).filter
      (fun r => decide ((r.vm_size, r.location) = ("Standard_D2s_v3", "eastus")))).length = 0 ∧
    ((findAzureRiOpportunities [⟨"v-1", "Standard_D2s_v3", "eastus", "running"⟩,
        ⟨"v-2", "Standard_D2s_v3", "eastus", "running"⟩]).filter
      (fun r => decide ((r.vm_size, r.location) = ("Standard_D2s_v3", "eastus")))).length = 1 := by
  have hg1 : gatedTypes 168 [⟨"i-1", "m5.large", some 50, 200⟩] = ["m5.large"] := by
    norm_num [gatedTypes]
  have hg2 : gatedTypes 168 [⟨"i-1", "m5.large", some 50, 200⟩,
      ⟨"i-2", "m5.large", some 50, 200⟩] = ["m5.large", "m5.large"] := by
    norm_num [gatedTypes]
  have hc1 : countKey "m5.large" (gatedTypes 168 [⟨"i-1", "m5.large", some 50, 200⟩]) = 1 := by
    rw [hg1]; simp [countKey]
  have hc2 : countKey "m5.large" (gatedTypes 168 [⟨"i-1", "m5.large", some 50, 200⟩,
      ⟨"i-2", "m5.large", some 50, 200⟩]) = 2 := by
    rw [hg2]; simp [countKey]
  have hz1 : azureGroupKeys [⟨"v-1", "Standard_D2s_v3", "eastus", "running"⟩] =
      [("Standard_D2s_v3", "eastus")] := by
    simp [azureGroupKeys]
  have hz2 : azureGroupKeys [⟨"v-1", "Standard_D2s_v3", "eastus", "running"⟩,
      ⟨"v-2", "Standard_D2s_v3", "eastus", "running"⟩] =
      [("Standard_D2s_v3", "eastus"), ("Standard_D2s_v3", "eastus")] := by
    simp [azureGroupKeys]
  have hzc1 : countKey ("Standard_D2s_v3", "eastus")
      (azureGroupKeys [⟨"v-1", "Standard_D2s_v3", "eastus", "running"⟩]) = 1 := by
    rw [hz1]; simp [countKey]
  have hzc2 : countKey ("Standard_D2s_v3", "eastus")
      (azureGroupKeys [⟨"v-1", "Standard_D2s_v3", "eastus", "running"⟩,
        ⟨"v-2", "Standard_D2s_v3", "eastus", "running"⟩]) = 2 := by
    rw [hz2]; simp [countKey]
  exact ⟨(c4_group_size_gate 168 _ "m5.large" [] ("x", "y")).1 hc1,
    (c4_group_size_gate 168 _ "m5.large" [] ("x", "y")).2.1 hc2,
    (c4_group_size_gate 168 [] "z" _ _).2.2.1 hzc1,
    (c4_group_size_gate 168 [] "z" _ _).2.2.2 hzc2⟩

/-- Inverting the idle rule: an emitted record carries its instance's type and
the `hourly_cost * 24 * 30` savings. -/
lemma idleRec_inv {i : Ec2Instance} {r : IdleRec} (h : idleRec i = some r) :
    r.instance_type = i.instance_type ∧
    r.estimated_monthly_savings =
      getInstanceHourlyCost i.instance_type * 24 * 30 := by
  obtain ⟨iid, ty, avg, up⟩ := i
  cases avg with
  | none => simp [idleRec] at h
  | some cpu =>
    simp only [idleRec] at h
    split at h
    · cases h
      exact ⟨rfl, rfl⟩
    · simp at h

/-- **C10.** The hourly-cost lookup used by the Terminate-Idle and
Reserved-Capacity rules returns the flat `0.1` default for off-catalog types
(no magnitude-based fallback appears in `_get_instance_hourly_cost`), its
result is always strictly positive, so every Terminate-Idle recommendation
has strictly positive savings — exactly `72.0` for off-catalog types. -/
theorem c10_idle_savings_positive :
    (∀ ty, alookup ty ec2Pricing = none → getInstanceHourlyCost ty = 0.1) ∧
    (∀ ty, 0 < getInstanceHourlyCost ty) ∧
    (∀ instances r, r ∈ findIdleInstances instances →
      r.estimated_monthly_savings =
          getInstanceHourlyCost r.instance_type * 24 * 30 ∧
        0 < r.estimated_monthly_savings) ∧
    (∀ instances r, r ∈ findIdleInstances instances →
      alookup r.instance_type ec2Pricing = none →
      r.estimated_monthly_savings = 72) := by
  have hdef : ∀ ty, alookup ty ec2Pricing = none → getInstanceHourlyCost ty = 0.1 := by
    intro ty h
    simp [getInstanceHourlyCost, h]
  have hmain : ∀ instances r, r ∈ findIdleInstances instances →
      r.estimated_monthly_savings =
          getInstanceHourlyCost r.instance_type * 24 * 30 ∧
        0 < r.estimated_monthly_savings := by
    intro instances r hr
    rw [findIdleInstances, List.mem_filterMap] at hr
    obtain ⟨i, _, hir⟩ := hr
    obtain ⟨hty, hsav⟩ := idleRec_inv hir
    rw [hty, hsav]
    refine ⟨rfl, ?_⟩
    have := getInstanceHourlyCost_pos i.instance_type
    positivity
  refine ⟨hdef, getInstanceHourlyCost_pos, hmain, ?_⟩
  intro instances r hr hnone
  rw [(hmain instances r hr).1, hdef _ hnone]
  norm_num

/-- Witness for C10: the off-catalog type `z9.mega` costs the default `0.1`
per hour and its idle recommendation carries exactly `72` in savings. -/
theorem c10_idle_savings_positive_witness :
    getInstanceHourlyCost "z9.mega" = 0.1 ∧
    (0 : ℚ) < getInstanceHourlyCost "t3.nano" ∧
    (0 : ℚ) < (⟨"i-z", "z9.mega", 1/2, 72, "Medium"⟩ : IdleRec).estimated_monthly_savings ∧
    (⟨"i-z", "z9.mega", 1/2, 72, "Medium"⟩ : IdleRec).estimated_monthly_savings = 72 := by
  have hzn : alookup "z9.mega" ec2Pricing = none := by simp [alookup, ec2Pricing]
  have hcost : getInstanceHourlyCost "z9.mega" = 0.1 := by
    simp [getInstanceHourlyCost, hzn]
  have heval : findIdleInstances [⟨"i-z", "z9.mega", some (1/2), 0⟩] =
      [⟨"i-z", "z9.mega", 1/2, 72, "Medium"⟩] := by
    simp only [findIdleInstances, List.filterMap_cons, List.filterMap_nil]
    norm_num [idleRec, hcost]
  have hmem : (⟨"i-z", "z9.mega", 1/2, 72, "Medium"⟩ : IdleRec) ∈
      findIdleInstances [⟨"i-z", "z9.mega", some (1/2), 0⟩] := by
    rw [heval]; simp
  exact ⟨c10_idle_savings_positive.1 "z9.mega" hzn,
    c10_idle_savings_positive.2.1 "t3.nano",
    (c10_idle_savings_positive.2.2.1 _ _ hmem).2,
    c10_idle_savings_positive.2.2.2 _ _ hmem hzn⟩

/-- With `glacier_threshold_days ≤ deep_archive_threshold_days` (thresholds
strictly increasing as the spec requires), the `elif days >
deep_archive_threshold_days` branch of `_find_storage_class_opportunities` is
unreachable: any `days` surpassing the deep-archive threshold already took the
glacier branch checked first. -/
lemma storageClassRec_never_deep_archive (cfg : S3Config)
    (hmono : cfg.glacier_threshold_days ≤ cfg.deep_archive_threshold_days)
    (b : S3Bucket) (r : StorageClassRec)
    (h : storageClassRec cfg b = some r) : r.storage_class ≠ "DEEP_ARCHIVE" := by
  unfold storageClassRec at h
  split at h
  · simp at h
  · cases hdays : b.days_since_access with
    | none => rw [hdays] at h; simp at h
    | some days =>
      rw [hdays] at h
      dsimp only at h
      split at h
      · split at h
        · cases h
          show ("GLACIER" : String) ≠ "DEEP_ARCHIVE"
          decide
        · split at h
          · exact absurd (lt_of_le_of_lt hmono ‹days > cfg.deep_archive_threshold_days›)
              ‹¬ days > cfg.glacier_threshold_days›
          · cases h
            show ("STANDARD_IA" : String) ≠ "DEEP_ARCHIVE"
            decide
      · simp at h

/-- **C1 (code bug).** A 500 GB bucket last accessed 200 days ago, with
thresholds IA=30 / Glacier=90 / DeepArchive=180, is recommended `GLACIER` at
the glacier rate differential — not `DEEP_ARCHIVE` as the spec requires —
because the glacier test precedes the deep-archive test in the if/elif
chain. -/
theorem c1_deep_archive_shadowed_by_glacier :
    storageClassRec ⟨30, 90, 180, 128⟩
        ⟨"big-bucket", 500 * (1024 * 1024 * 1024), some 200, false, [], false⟩ =
      some ⟨"big-bucket", "GLACIER",
        calculateGlacierSavings (500 * (1024 * 1024 * 1024)), 200⟩ ∧
    calculateGlacierSavings (500 * (1024 * 1024 * 1024)) = 114 ∧
    findStorageClassOpportunities ⟨30, 90, 180, 128⟩
        [⟨"big-bucket", 500 * (1024 * 1024 * 1024), some 200, false, [], false⟩] =
      [⟨"big-bucket", "GLACIER", 114, 200⟩] ∧
    ("GLACIER" : String) ≠ "DEEP_ARCHIVE" := by
  have hsav : calculateGlacierSavings (500 * (1024 * 1024 * 1024)) = 114 := by
    norm_num [calculateGlacierSavings]
  have heval : storageClassRec ⟨30, 90, 180, 128⟩
      ⟨"big-bucket", 500 * (1024 * 1024 * 1024), some 200, false, [], false⟩ =
      some ⟨"big-bucket", "GLACIER",
        calculateGlacierSavings (500 * (1024 * 1024 * 1024)), 200⟩ := by
    norm_num [storageClassRec]
  refine ⟨heval, hsav, ?_, by decide⟩
  simp only [findStorageClassOpportunities, List.filterMap_cons,
    List.filterMap_nil, heval, hsav]

/-- **C2 (code bug).** An `m5.10xlarge` at 3.0% CPU (threshold 5.0) downsizes
to `m5.4xlarge`; `m5.10xlarge` is in neither the pricing table nor the
size-multiplier table, so `_calculate_downsizing_savings` falls through to
`(0.0 − 0.768) × 24 × 30 = −552.96`, and `_find_underutilized_instances`
still emits the recommendation — with strictly negative savings, which the
spec forbids. -/
theorem c2_negative_savings_emitted :
    findUnderutilizedInstances 5 [⟨"i-neg", "m5.10xlarge", some 3, 0⟩] =
      [⟨"i-neg", "m5.10xlarge", "m5.4xlarge", 3, -13824/25, "Medium"⟩] ∧
    (-13824/25 : ℚ) < 0 := by
  have hsplit1 : splitDot "m5.10xlarge" = some ("m5", "10xlarge") := by
    simp [splitDot, splitParts]
  have hsplit2 : splitDot "m5.4xlarge" = some ("m5", "4xlarge") := by
    simp [splitDot, splitParts]
  have happ : ("m5" ++ "." ++ "4xlarge" : String) = "m5.4xlarge" := rfl
  have hsm : alookup "10xlarge" size_map = some "4xlarge" := by
    simp [alookup, size_map]
  have hrec : recommendInstanceType 5 "m5.10xlarge" 3 = some "m5.4xlarge" := by
    simp only [recommendInstanceType, hsplit1, hsm]
    rw [if_pos (by norm_num : (3 : ℚ) < 5), happ]
  have hp1 : alookup "m5.10xlarge" ec2Pricing = none := by
    simp [alookup, ec2Pricing]
  have hp2 : alookup "m5.4xlarge" ec2Pricing = some 0.768 := by
    simp [alookup, ec2Pricing]
  have hm1 : alookup "10xlarge" size_multipliers = none := by
    simp [alookup, size_multipliers]
  have hcalc : calculateDownsizingSavings "m5.10xlarge" "m5.4xlarge" =
      -13824/25 := by
    simp only [calculateDownsizingSavings, hp1, hp2, Option.getD_some,
      Option.getD_none, hsplit1, hsplit2, hm1]
    norm_num
  have hne : ¬ ("m5.4xlarge" : String) = "m5.10xlarge" := by decide
  refine ⟨?_, by norm_num⟩
  simp only [findUnderutilizedInstances, List.filterMap_cons,
    List.filterMap_nil]
  norm_num [rightsizeRec, hrec, hcalc, hne]

/-- **C3 counterexample.** The AWS EC2 Reserved-Instance grouper applies a
flat 40% discount: a qualifying group of five `m5.large` yields savings
`0.096 × 720 × 5 × 0.4 = 138.24`, not the 60% tier the claim asserts for
every provider. -/
theorem c3_aws_flat_discount_counterexample :
    findRiOpportunities 168
        [⟨"i-1", "m5.large", some 50, 200⟩, ⟨"i-2", "m5.large", some 50, 200⟩,
         ⟨"i-3", "m5.large", some 50, 200⟩, ⟨"i-4", "m5.large", some 50, 200⟩,
         ⟨"i-5", "m5.large", some 50, 200⟩] =
      [⟨"m5.large", 5, 3456/25, "Medium"⟩] ∧
    (3456/25 : ℚ) ≠ getInstanceHourlyCost "m5.large" * 24 * 30 * 5 * 0.6 := by
  have hcost : getInstanceHourlyCost "m5.large" = 0.096 := by
    have : alookup "m5.large" ec2Pricing = some 0.096 := by
      simp [alookup, ec2Pricing]
    simp [getInstanceHourlyCost, this]
  have hg : gatedTypes 168
      [⟨"i-1", "m5.large", some 50, 200⟩, ⟨"i-2", "m5.large", some 50, 200⟩,
       ⟨"i-3", "m5.large", some 50, 200⟩, ⟨"i-4", "m5.large", some 50, 200⟩,
       ⟨"i-5", "m5.large", some 50, 200⟩] =
      ["m5.large", "m5.large", "m5.large", "m5.large", "m5.large"] := by
    norm_num [gatedTypes]
  constructor
  · rw [findRiOpportunities, hg]
    have hdk : dictKeys ["m5.large", "m5.large", "m5.large", "m5.large",
        "m5.large"] = ["m5.large"] := by
      simp [dictKeys]
    have hck : countKey "m5.large" ["m5.large", "m5.large", "m5.large",
        "m5.large", "m5.large"] = 5 := by
      simp [countKey]
    rw [hdk]
    simp only [List.filterMap_cons, List.filterMap_nil, hck]
    norm_num [awsRiRec, hcost]
  · rw [hcost]
    norm_num

/-- **C3 amended.** The Azure VM grouper's discount is the claimed step
function of the count — `count ≥ 5` gets the 3-year tier at 60%, a smaller
qualifying group the 1-year tier at 35% — while the AWS EC2 grouper applies a
flat 40% discount (`on_demand − on_demand × 0.6`) regardless of count. -/
theorem c3_discount_step_function_amended (sz loc ty : String) (n : ℕ) :
    (5 ≤ n →
      (azureRiRec sz loc n).estimated_monthly_savings =
          getVmHourlyCost sz * 24 * 30 * n * 0.6 ∧
        (azureRiRec sz loc n).ri_term = "3-year") ∧
    (n < 5 →
      (azureRiRec sz loc n).estimated_monthly_savings =
          getVmHourlyCost sz * 24 * 30 * n * 0.35 ∧
        (azureRiRec sz loc n).ri_term = "1-year") ∧
    (awsRiRec ty n).estimated_monthly_savings =
      getInstanceHourlyCost ty * 24 * 30 * n * 0.4 := by
  refine ⟨?_, ?_, ?_⟩
  · intro h5
    exact ⟨by simp only [azureRiRec, if_pos h5], by simp [azureRiRec, if_pos h5]⟩
  · intro h5
    exact ⟨by simp only [azureRiRec, if_neg (not_le.mpr h5)],
      by simp [azureRiRec, if_neg (not_le.mpr h5)]⟩
  · simp only [awsRiRec]
    ring

/-- Witness for the amended C3: counts 5 and 4 on `Standard_D2s_v3`, and the
AWS flat discount at count 5. -/
theorem c3_discount_step_function_amended_witness :
    ((azureRiRec "Standard_D2s_v3" "eastus" 5).estimated_monthly_savings =
        getVmHourlyCost "Standard_D2s_v3" * 24 * 30 * 5 * 0.6 ∧
      (azureRiRec "Standard_D2s_v3" "eastus" 5).ri_term = "3-year") ∧
    ((azureRiRec "Standard_D2s_v3" "eastus" 4).estimated_monthly_savings =
        getVmHourlyCost "Standard_D2s_v3" * 24 * 30 * 4 * 0.35 ∧
      (azureRiRec "Standard_D2s_v3" "eastus" 4).ri_term = "1-year") ∧
    (awsRiRec "m5.large" 5).estimated_monthly_savings =
      getInstanceHourlyCost "m5.large" * 24 * 30 * 5 * 0.4 :=
  ⟨(c3_discount_step_function_amended "Standard_D2s_v3" "eastus" "m5.large" 5).1
      (by norm_num),
    (c3_discount_step_function_amended "Standard_D2s_v3" "eastus" "m5.large" 4).2.1
      (by norm_num),
    (c3_discount_step_function_amended "Standard_D2s_v3" "eastus" "m5.large" 5).2.2⟩

/-- **C9 counterexample.** A versioned bucket with no lifecycle policy at all
(hence no noncurrent-version-expiration rule anywhere) gets no recommendation
from the versioning rule, because the source requires
`versioning['enabled'] and lifecycle['has_lifecycle_policy']`. -/
theorem c9_versioning_needs_policy_counterexample :
    versioningRec ⟨"vb", 10 * (1024 * 1024 * 1024), none, false, [], true⟩ =
      none ∧
    findVersioningOpportunities
        [⟨"vb", 10 * (1024 * 1024 * 1024), none, false, [], true⟩] = [] ∧
    (⟨"vb", 10 * (1024 * 1024 * 1024), none, false, [], true⟩ :
        S3Bucket).versioning_enabled = true ∧
    (⟨"vb", 10 * (1024 * 1024 * 1024), none, false, [], true⟩ :
        S3Bucket).rules = [] := by
  refine ⟨?_, ?_, rfl, rfl⟩
  · simp [versioningRec]
  · simp [findVersioningOpportunities, versioningRec]

/-- **C9 amended.** For every bucket with versioning enabled *and an existing
lifecycle policy* none of whose rules has a noncurrent-version expiration,
the versioning rule emits one recommendation with savings
`size_GB × 0.5 × 0.023 × 12`. -/
theorem c9_versioning_rule_amended (b : S3Bucket)
    (hv : b.versioning_enabled = true) (hp : b.has_lifecycle_policy = true)
    (hr : ∀ rule ∈ b.rules, rule.noncurrent_version_expiration = false) :
    versioningRec b =
      some ⟨b.name, b.size_bytes / (1024 * 1024 * 1024) * 0.5 * 0.023 * 12⟩ := by
  unfold versioningRec
  rw [if_pos ⟨hv, hp⟩]
  rw [if_neg ?_]
  · rfl
  · simp only [List.any_eq_true, not_exists]
    rintro rule ⟨hmem, htrue⟩
    rw [hr rule hmem] at htrue
    exact absurd htrue (by simp)

/-- Witness for the amended C9: a 100 GB versioned bucket whose lifecycle
policy has one rule without noncurrent-version expiration. -/
theorem c9_versioning_rule_amended_witness :
    versioningRec ⟨"wb", 100 * (1024 * 1024 * 1024), none, true, [⟨false⟩], true⟩ =
      some ⟨"wb",
        (100 * (1024 * 1024 * 1024) : ℚ) / (1024 * 1024 * 1024) * 0.5 * 0.023 * 12⟩ :=
  c9_versioning_rule_amended _ rfl rfl (by simp)

end CloudCost
